import Mathlib

/-!
  # Coursera Study Buddy — verification of the ingest-and-query pipeline

  Shallow embedding of the orchestration logic of `app.py` (the current
  application variant; `app_old.py` agrees on the parts modelled here).
  Python strings are modelled as `List Char` (so slicing, `len`,
  `startswith`, concatenation become plain list operations), raw file
  contents as `List Nat` with every entry below 256.

  External collaborators (Streamlit widgets, Supabase storage and tables,
  Pinecone, the PDF renderer, the chunker, the LLM) are modelled as
  explicit state components or environment functions; the control flow
  around them is translated line by line from `app.py`.
-/

/-- A Python string: a sequence of characters. -/
abbrev Str := List Char

/-- Raw file contents: a sequence of byte values (each `< 256`). -/
abbrev Bytes := List Nat

/-! ## Base64 (Python `base64.b64encode` / `b64decode`)

The fallback storage path of `upload_file_to_database` stores the raw file
bytes base64-encoded in the `file_contents` table, and
`extract_text_from_supabase_pdf` decodes them on retrieval, so the codec is
load-bearing for the round-trip claims. -/

/-- The RFC 4648 base64 alphabet used by Python's `base64` module. -/
def b64Alphabet : Str :=
  "ABCDEFGHIJKLMNOPQRSTUVWXYZabcdefghijklmnopqrstuvwxyz0123456789+/".toList

/-- The character encoding a 6-bit group. -/
def sextetToChar (s : Nat) : Char := b64Alphabet.getD s '='

/-- The 6-bit group encoded by an alphabet character. -/
def charToSextet (c : Char) : Nat := b64Alphabet.indexOf c

/-- Python `base64.b64encode`: groups of three bytes become four alphabet
characters; a trailing group of two or one bytes is padded with `=`. -/
def b64Encode : Bytes → Str
  | b1 :: b2 :: b3 :: rest =>
    let n := b1 % 256 * 65536 + b2 % 256 * 256 + b3 % 256
    sextetToChar (n / 262144) :: sextetToChar (n / 4096 % 64) ::
      sextetToChar (n / 64 % 64) :: sextetToChar (n % 64) :: b64Encode rest
  | [b1, b2] =>
    let n := b1 % 256 * 1024 + b2 % 256 * 4
    [sextetToChar (n / 4096), sextetToChar (n / 64 % 64), sextetToChar (n % 64), '=']
  | [b1] =>
    let n := b1 % 256 * 16
    [sextetToChar (n / 64), sextetToChar (n % 64), '=', '=']
  | [] => []

/-- Python `base64.b64decode`: four characters at a time, with `=` padding
signalling a short final group. -/
def b64Decode : Str → Bytes
  | c1 :: c2 :: c3 :: c4 :: rest =>
    let s1 := charToSextet c1
    let s2 := charToSextet c2
    if c3 = '=' then
      [s1 * 4 + s2 / 16]
    else if c4 = '=' then
      let s3 := charToSextet c3
      [s1 * 4 + s2 / 16, s2 % 16 * 16 + s3 / 4]
    else
      let s3 := charToSextet c3
      let s4 := charToSextet c4
      let n := s1 * 262144 + s2 * 4096 + s3 * 64 + s4
      n / 65536 :: n / 256 % 256 :: n % 256 :: b64Decode rest
  | _ => []

/-- Encoding a 6-bit group never produces the padding character. -/
theorem sextetToChar_ne_pad : ∀ s : Nat, s < 64 → sextetToChar s ≠ '=' := by
  decide

/-- Decoding inverts encoding on 6-bit groups. -/
theorem charToSextet_sextetToChar : ∀ s : Nat, s < 64 → charToSextet (sextetToChar s) = s := by
  decide

/-- Base64 round-trip: decoding an encoded byte sequence recovers it
exactly (bytes are below 256). -/
theorem b64Decode_b64Encode : ∀ bs : Bytes, (∀ b ∈ bs, b < 256) → b64Decode (b64Encode bs) = bs
  | [], _ => rfl
  | [b1], h => by
    have hb1 : b1 < 256 := h b1 (by simp)
    have hm : b1 % 256 = b1 := Nat.mod_eq_of_lt hb1
    simp only [b64Encode, hm]
    have h1 : b1 * 16 / 64 < 64 := by omega
    have h2 : b1 * 16 % 64 < 64 := by omega
    simp only [b64Decode, if_true, eq_self_iff_true, charToSextet_sextetToChar _ h1,
      charToSextet_sextetToChar _ h2]
    have : b1 * 16 / 64 * 4 + b1 * 16 % 64 / 16 = b1 := by omega
    simp [this]
  | [b1, b2], h => by
    have hb1 : b1 < 256 := h b1 (by simp)
    have hb2 : b2 < 256 := h b2 (by simp)
    have hm1 : b1 % 256 = b1 := Nat.mod_eq_of_lt hb1
    have hm2 : b2 % 256 = b2 := Nat.mod_eq_of_lt hb2
    simp only [b64Encode, hm1, hm2]
    set n := b1 * 1024 + b2 * 4 with hn
    have h1 : n / 4096 < 64 := by omega
    have h2 : n / 64 % 64 < 64 := by omega
    have h3 : n % 64 < 64 := by omega
    simp only [b64Decode, if_neg (sextetToChar_ne_pad _ h3), if_true, eq_self_iff_true,
      charToSextet_sextetToChar _ h1, charToSextet_sextetToChar _ h2,
      charToSextet_sextetToChar _ h3, List.cons.injEq, eq_self_iff_true, and_true]
    omega
  | b1 :: b2 :: b3 :: b4 :: rest, h => by
    have hb1 : b1 < 256 := h b1 (by simp)
    have hb2 : b2 < 256 := h b2 (by simp)
    have hb3 : b3 < 256 := h b3 (by simp)
    have ih := b64Decode_b64Encode (b4 :: rest) (fun b hb => h b (by simp [hb]))
    have hm1 : b1 % 256 = b1 := Nat.mod_eq_of_lt hb1
    have hm2 : b2 % 256 = b2 := Nat.mod_eq_of_lt hb2
    have hm3 : b3 % 256 = b3 := Nat.mod_eq_of_lt hb3
    simp only [b64Encode, hm1, hm2, hm3]
    set n := b1 * 65536 + b2 * 256 + b3 with hn
    have h1 : n / 262144 < 64 := by omega
    have h2 : n / 4096 % 64 < 64 := by omega
    have h3 : n / 64 % 64 < 64 := by omega
    have h4 : n % 64 < 64 := by omega
    simp only [b64Decode, if_neg (sextetToChar_ne_pad _ h3), if_neg (sextetToChar_ne_pad _ h4),
      charToSextet_sextetToChar _ h1, charToSextet_sextetToChar _ h2,
      charToSextet_sextetToChar _ h3, charToSextet_sextetToChar _ h4,
      List.cons.injEq]
    exact ⟨by omega, by omega, by omega, ih⟩
  | [b1, b2, b3], h => by
    have hb1 : b1 < 256 := h b1 (by simp)
    have hb2 : b2 < 256 := h b2 (by simp)
    have hb3 : b3 < 256 := h b3 (by simp)
    have hm1 : b1 % 256 = b1 := Nat.mod_eq_of_lt hb1
    have hm2 : b2 % 256 = b2 := Nat.mod_eq_of_lt hb2
    have hm3 : b3 % 256 = b3 := Nat.mod_eq_of_lt hb3
    simp only [b64Encode, hm1, hm2, hm3]
    set n := b1 * 65536 + b2 * 256 + b3 with hn
    have h1 : n / 262144 < 64 := by omega
    have h2 : n / 4096 % 64 < 64 := by omega
    have h3 : n / 64 % 64 < 64 := by omega
    have h4 : n % 64 < 64 := by omega
    simp only [b64Decode, if_neg (sextetToChar_ne_pad _ h3), if_neg (sextetToChar_ne_pad _ h4),
      charToSextet_sextetToChar _ h1, charToSextet_sextetToChar _ h2,
      charToSextet_sextetToChar _ h3, charToSextet_sextetToChar _ h4,
      List.cons.injEq, eq_self_iff_true, and_true]
    omega

/-! ## Data model

`TranscriptRecord` mirrors the `transcripts` table (`app.py` lines
522-531), `FileContentRecord` the `file_contents` fallback table
(`upload_file_to_database`), `Node` a LlamaIndex node, `ChatMessage` an
entry of `st.session_state.messages`. -/

/-- A row of the `transcripts` table; `week_number` is nullable in the
declared schema. -/
structure TranscriptRecord where
  course_name : Str
  week_number : Option Int
  transcript_name : Str
  file_path : Str
deriving DecidableEq

/-- A row of the `file_contents` fallback table; `file_data` holds the
base64-encoded raw file bytes. -/
structure FileContentRecord where
  course_name : Str
  week_number : Option Int
  transcript_name : Str
  file_name : Str
  file_data : Str
deriving DecidableEq

/-- The metadata triple attached to every chunk of a document. -/
structure NodeMeta where
  course_name : Str
  week_number : Int
  transcript_name : Str
deriving DecidableEq

/-- A chunk as held by the vector store: its text plus optional metadata. -/
structure Node where
  text : Str
  metadata : Option NodeMeta
deriving DecidableEq

/-- The role of a chat message. -/
inductive ChatRole
  | user
  | assistant
deriving DecidableEq

/-- An entry of the session chat log. -/
structure ChatMessage where
  role : ChatRole
  content : Str
deriving DecidableEq

/-- The externally stored application state: the `transcripts` table, the
`transcripts` storage bucket (path, bytes), the `file_contents` fallback
table, the Pinecone index contents, and the session chat log. -/
structure AppState where
  transcripts : List TranscriptRecord
  storage : List (Str × Bytes)
  fileContents : List FileContentRecord
  pinecone : List Node
  messages : List ChatMessage
deriving DecidableEq

/-- The empty application state. -/
def emptyState : AppState :=
  { transcripts := [], storage := [], fileContents := [], pinecone := [], messages := [] }

/-! ## Storage collaborator -/

/-- `supabase.storage.from_("transcripts").upload(path, bytes, upsert)`:
an upsert keyed by path. -/
def storageUpload (store : List (Str × Bytes)) (path : Str) (bs : Bytes) :
    List (Str × Bytes) :=
  (path, bs) :: store.filter (fun e => ¬ e.1 = path)

/-- `supabase.storage.from_("transcripts").download(path)`; `none` models
the download raising (no local-file fallback is available either). -/
def storageDownload (store : List (Str × Bytes)) (path : Str) : Option Bytes :=
  (store.find? (fun e => e.1 = path)).map (fun e => e.2)

/-- Postgres `ilike` with no wildcard: case-insensitive string equality, as
used by `extract_text_from_supabase_pdf` to look up fallback records. -/
def ilikeMatch (a b : Str) : Bool :=
  a.map Char.toLower = b.map Char.toLower

/-- The marker prepended to `file_path` when the file lives in the
`file_contents` table instead of object storage. -/
def dbMarker : Str := "DB_".toList

/-- The byte-level core of `extract_text_from_supabase_pdf` (`app.py` lines
272-334): a `DB_`-tagged path is resolved by stripping the tag, taking the
first `file_contents` row whose `file_name` matches case-insensitively and
base64-decoding its payload; any other path is downloaded from the
`transcripts` bucket. `none` models the error paths that return `""`. -/
def resolveFileBytes (st : AppState) (path : Str) : Option Bytes :=
  if dbMarker.isPrefixOf path then
    let filename := path.drop 3
    match st.fileContents.filter (fun r => ilikeMatch r.file_name filename) with
    | [] => none
    | r :: _ => some (b64Decode r.file_data)
  else
    storageDownload st.storage path

/-! ## Text extraction (`extract_text_from_pdf`, `app.py` lines 136-152)

The PDF renderer is external: a document is modelled as the list of its
pages' extraction results in page order, `none` meaning `page.get_text()`
raises on that page, plus a flag for `fitz.open` itself raising. The
accumulator threading mirrors `text = ""; for page in doc: text +=
page.get_text()` under a `try` that catches anywhere. -/

/-- The page loop: accumulate page text until a page raises; the second
component records whether an error was reported (`st.error`). -/
def extractPages : List (Option Str) → Str → Str × Bool
  | [], acc => (acc, false)
  | some t :: rest, acc => extractPages rest (acc ++ t)
  | none :: _, acc => (acc, true)

/-- `extract_text_from_pdf`: open the document and concatenate per-page
text; returns the accumulated text plus whether an error was reported. -/
def extract_text_from_pdf (openRaises : Bool) (pages : List (Option Str)) : Str × Bool :=
  if openRaises then ([], true) else extractPages pages []

/-! ## Upload widgets -/

/-- `st.number_input(min_value, max_value, value)`: the widget returns the
default when untouched and clamps any entered value into its bounds (the
interface refuses values outside `[min_value, max_value]`). -/
def number_input (minValue maxValue value : Int) (entered : Option Int) : Int :=
  match entered with
  | none => value
  | some v => max minValue (min maxValue v)

/-! ## Ingestion (tab1 upload handler, `app.py` lines 398-607) -/

/-- The inputs of one upload: the three metadata fields plus the uploaded
file's name and bytes. -/
structure IngestInput where
  course_name : Str
  week_number : Int
  transcript_name : Str
  file_name : Str
  file_bytes : Bytes

/-- The external outcomes an upload run can encounter: the text extracted
from the uploaded PDF, whether each storage call raises, whether the bucket
listing shows the uploaded file, whether the fallback insert raises, the
chunker, and whether Pinecone indexing raises. -/
structure IngestEnv where
  extractedText : Str
  uploadRaises : Bool
  verifyFindsFile : Bool
  altUploadRaises : Bool
  dbInsertRaises : Bool
  chunker : Str → List Node
  indexRaises : Bool

/-- How an upload run ends: `success` (metadata row written, indexing
attempted), `extractionFailed` (empty text, nothing persisted), or
`uploadFailed` (`st.stop()` after every upload method failed). -/
inductive IngestOutcome
  | success
  | extractionFailed
  | uploadFailed
deriving DecidableEq

/-- User-facing messages the handlers emit (only those the claims inspect
carry payloads). -/
inductive UiMsg
  | extractionError
  | storageUploadError
  | altUploadError
  | allUploadsFailedError
  | fallbackSuccess
  | metadataSaved
  | indexedSuccess
  | indexWarning
  | noContentWarning
  | noTranscriptsForFilters
  | foundInfo (n : Nat)
  | processingFile (path : Str)
  | couldNotExtract (path : Str)
  | indexedFile (path : Str)
  | indexFileError (path : Str)
  | truncationWarning
  | couldNotExtractAny
  | searchingInfo (n : Nat)
deriving DecidableEq

/-- Result of one upload run. -/
structure IngestResult where
  state : AppState
  outcome : IngestOutcome
  msgs : List UiMsg

/-- The metadata triple of an upload, as attached to its chunks. -/
def metaTriple (inp : IngestInput) : NodeMeta :=
  { course_name := inp.course_name
    week_number := inp.week_number
    transcript_name := inp.transcript_name }

/-- `for node in nodes: node.metadata = {course_name, week_number,
transcript_name}` — overwrite every node's metadata with the triple. -/
def attachMetadata (nodes : List Node) (m : NodeMeta) : List Node :=
  nodes.map (fun n => { n with metadata := some m })

/-- Decimal rendering of a week number, as interpolated into the storage
path `f"{course_name}_{week_number}_{file.name}"`. -/
def intStr (w : Int) : Str := (toString w).toList

/-- The primary storage path derived from course, week and file name. -/
def primaryPath (inp : IngestInput) : Str :=
  inp.course_name ++ ('_' :: intStr inp.week_number) ++ ('_' :: inp.file_name)

/-- The tail of the upload handler (`app.py` lines 513-607): insert the
`transcripts` row pointing at `path`, then attempt Pinecone indexing, whose
failure is only a warning. -/
def finishIngest (st1 : AppState) (env : IngestEnv) (inp : IngestInput)
    (path : Str) (ms : List UiMsg) : IngestResult :=
  let trec : TranscriptRecord :=
    { course_name := inp.course_name
      week_number := some inp.week_number
      transcript_name := inp.transcript_name
      file_path := path }
  let st2 := { st1 with transcripts := st1.transcripts ++ [trec] }
  if env.indexRaises then
    { state := st2, outcome := .success, msgs := ms ++ [.metadataSaved, .indexWarning] }
  else
    let nodes := attachMetadata (env.chunker env.extractedText) (metaTriple inp)
    { state := { st2 with pinecone := st2.pinecone ++ nodes }
      outcome := .success
      msgs := ms ++ [.metadataSaved, .indexedSuccess] }

/-- The tab1 upload handler (`app.py` lines 398-607): extract text (abort
on empty), try the primary storage upload (with listing verification), then
the simplified-path retry, then the base64 database fallback tagged with
`DB_`; finally write the metadata row and attempt indexing. -/
def ingest (st : AppState) (env : IngestEnv) (inp : IngestInput) : IngestResult :=
  if env.extractedText = [] then
    { state := st, outcome := .extractionFailed, msgs := [.extractionError] }
  else
    let attempt :=
      if env.uploadRaises then
        if env.altUploadRaises then
          (st.storage, primaryPath inp, false,
            ([.storageUploadError, .altUploadError] : List UiMsg))
        else
          (storageUpload st.storage inp.file_name inp.file_bytes, inp.file_name, true,
            ([.storageUploadError] : List UiMsg))
      else
        let stor := storageUpload st.storage (primaryPath inp) inp.file_bytes
        if env.verifyFindsFile then (stor, primaryPath inp, true, ([] : List UiMsg))
        else (stor, primaryPath inp, false, ([] : List UiMsg))
    if attempt.2.2.1 then
      finishIngest { st with storage := attempt.1 } env inp attempt.2.1 attempt.2.2.2
    else
      if env.dbInsertRaises then
        { state := { st with storage := attempt.1 }
          outcome := .uploadFailed
          msgs := attempt.2.2.2 ++ [.allUploadsFailedError] }
      else
        let fcrec : FileContentRecord :=
          { course_name := inp.course_name
            week_number := some inp.week_number
            transcript_name := inp.transcript_name
            file_name := inp.file_name
            file_data := b64Encode inp.file_bytes }
        finishIngest
          { st with storage := attempt.1, fileContents := st.fileContents ++ [fcrec] }
          env inp (dbMarker ++ inp.file_name) (attempt.2.2.2 ++ [.fallbackSuccess])

/-! ## Query-side environment and shared pieces -/

/-- External collaborators of the query handlers: the PDF renderer (bytes
to text), the chunker, whether per-file Pinecone indexing raises, the chat
LLM (prompt content to completion), and whether the Ask try-block raises
(with the exception's rendering). -/
structure QueryEnv where
  pdfText : Bytes → Str
  chunker : Str → List Node
  indexRaises : Bool
  llm : Str → Str
  askRaises : Bool
  askErrorText : Str

/-- `extract_text_from_supabase_pdf`: resolve the stored bytes and render
them to text; every error path yields the empty string. -/
def extractTextFromStorage (env : QueryEnv) (st : AppState) (path : Str) : Str :=
  match resolveFileBytes st path with
  | none => []
  | some bs => env.pdfText bs

/-- `supabase.table("transcripts").select("*").eq("course_name",
c).eq("week_number", w)`. -/
def matchingTranscripts (st : AppState) (c : Str) (w : Int) : List TranscriptRecord :=
  st.transcripts.filter (fun r => decide (r.course_name = c ∧ r.week_number = some w))

/-- The tab3 query: equality filters applied only when a specific course or
week is selected. -/
def matchingOptional (st : AppState) (cf : Option Str) (wf : Option Int) :
    List TranscriptRecord :=
  st.transcripts.filter (fun r =>
    (match cf with
     | none => true
     | some c => decide (r.course_name = c)) &&
    (match wf with
     | none => true
     | some w => decide (r.week_number = some w)))

/-- The truncation marker appended after the kept text. -/
def dots3 : Str := "...".toList

/-- `if len(all_text) > max_length: all_text = all_text[:max_length] +
"..."` — deterministic prefix truncation (`app.py` lines 692-694 and
805-808). -/
def truncateForPrompt (maxLength : Nat) (s : Str) : Str :=
  if maxLength < s.length then s.take maxLength ++ dots3 else s

/-! ## Summarize (tab2 handler, `app.py` lines 634-723)

The per-transcript loop appends extracted text to `all_text`, re-inserts
the chunks of each readable transcript into Pinecone, and writes progress
messages; the loop is rendered as one concatenation per accumulator. -/

/-- The `"\n\n"` glue after each transcript's text. -/
def nl2 : Str := "\n\n".toList

/-- Text contributed to `all_text` by one transcript row. -/
def summarizePerText (env : QueryEnv) (st : AppState) (r : TranscriptRecord) : Str :=
  let text := extractTextFromStorage env st r.file_path
  if text = [] then [] else text ++ nl2

/-- Nodes re-inserted into Pinecone for one transcript row: the chunks of
its freshly extracted text, each tagged with the selected course and week
and the row's transcript name. -/
def summarizePerNodes (env : QueryEnv) (st : AppState) (c : Str) (w : Int)
    (r : TranscriptRecord) : List Node :=
  let text := extractTextFromStorage env st r.file_path
  if text = [] then []
  else if env.indexRaises then []
  else attachMetadata (env.chunker text)
    { course_name := c, week_number := w, transcript_name := r.transcript_name }

/-- Messages emitted while processing one transcript row. -/
def summarizePerMsgs (env : QueryEnv) (st : AppState) (r : TranscriptRecord) : List UiMsg :=
  let text := extractTextFromStorage env st r.file_path
  if text = [] then [.processingFile r.file_path, .couldNotExtract r.file_path]
  else if env.indexRaises then [.processingFile r.file_path, .indexFileError r.file_path]
  else [.processingFile r.file_path, .indexedFile r.file_path]

/-- `all_text` after the tab2 loop. -/
def summarizeAllText (st : AppState) (env : QueryEnv) (c : Str) (w : Int) : Str :=
  ((matchingTranscripts st c w).map (summarizePerText env st)).flatten

/-- The nodes the tab2 loop upserts into Pinecone on this run. -/
def summarizeNewNodes (st : AppState) (env : QueryEnv) (c : Str) (w : Int) : List Node :=
  ((matchingTranscripts st c w).map (summarizePerNodes env st c w)).flatten

/-- The messages emitted by the tab2 loop. -/
def summarizeLoopMsgs (st : AppState) (env : QueryEnv) (c : Str) (w : Int) : List UiMsg :=
  ((matchingTranscripts st c w).map (summarizePerMsgs env st)).flatten

/-- Result of one Summarize run: the updated state, whether the chat LLM
was invoked, the content block of the prompt sent to it, the surfaced
summary, and the emitted messages. -/
structure SummarizeResult where
  state : AppState
  llmCalled : Bool
  promptContent : Option Str
  output : Option Str
  msgs : List UiMsg

/-- The tab2 Generate Summary handler: short-circuit when no transcript
row matches; otherwise process every matching transcript (re-indexing each
into Pinecone), truncate the combined text at 12000 characters, and call
the LLM — with no warning about the truncation. -/
def summarize (st : AppState) (env : QueryEnv) (c : Str) (w : Int) : SummarizeResult :=
  let matching := matchingTranscripts st c w
  if matching = [] then
    { state := st, llmCalled := false, promptContent := none, output := none
      msgs := [.noContentWarning] }
  else
    let allText := summarizeAllText st env c w
    let st1 := { st with pinecone := st.pinecone ++ summarizeNewNodes st env c w }
    let ms := UiMsg.foundInfo matching.length :: summarizeLoopMsgs st env c w
    if allText = [] then
      { state := st1, llmCalled := false, promptContent := none, output := none
        msgs := ms ++ [.couldNotExtractAny] }
    else
      let content := truncateForPrompt 12000 allText
      { state := st1, llmCalled := true, promptContent := some content
        output := some (env.llm content), msgs := ms }

/-! ## Ask Questions (tab3 handler, `app.py` lines 765-827) -/

/-- The per-transcript header `f"\n\n--- {transcript_name} ---\n\n"`. -/
def askHeaderL : Str := "\n\n--- ".toList

/-- The closing part of the per-transcript header. -/
def askHeaderR : Str := " ---\n\n".toList

/-- Text contributed to the tab3 `all_text` by one transcript row. -/
def askPerText (env : QueryEnv) (st : AppState) (r : TranscriptRecord) : Str :=
  let text := extractTextFromStorage env st r.file_path
  if text = [] then [] else askHeaderL ++ r.transcript_name ++ askHeaderR ++ text

/-- `all_text` after the tab3 loop. -/
def askAllText (st : AppState) (env : QueryEnv) (cf : Option Str) (wf : Option Int) : Str :=
  ((matchingOptional st cf wf).map (askPerText env st)).flatten

/-- The canned reply when no transcript row matches the filters. -/
def noInfoResponse : Str :=
  "I don\x27t have any information for your query. Please check if you have uploaded relevant transcripts and selected the correct course/week.".toList

/-- The canned reply when no matching transcript yields text. -/
def cantExtractResponse : Str :=
  "I couldn\x27t extract text from any of the transcripts. Please check if the PDFs are valid and try again.".toList

/-- The `f"Error: {str(e)}"` rendering of a caught exception. -/
def errorReply (e : Str) : Str := "Error: ".toList ++ e

/-- Result of one Ask run (the assistant reply itself lands in the chat
log inside the returned state). -/
structure AskResult where
  state : AppState
  llmCalled : Bool
  promptContent : Option Str
  msgs : List UiMsg

/-- The tab3 chat handler: append the user message; then either the
try-block raises (error reply), no row matches (canned no-info reply, no
LLM call), no text extracts (canned reply, no LLM call), or the combined
text — truncated at 14000 characters with a warning when over — is sent to
the LLM; in every case exactly one assistant message is appended. -/
def ask (st : AppState) (env : QueryEnv) (cf : Option Str) (wf : Option Int)
    (q : Str) : AskResult :=
  let base := st.messages ++ [{ role := .user, content := q }]
  if env.askRaises then
    { state := { st with messages := base ++ [{ role := .assistant, content := errorReply env.askErrorText }] }
      llmCalled := false, promptContent := none, msgs := [] }
  else
    let matching := matchingOptional st cf wf
    if matching = [] then
      { state := { st with messages := base ++ [{ role := .assistant, content := noInfoResponse }] }
        llmCalled := false, promptContent := none, msgs := [.noTranscriptsForFilters] }
    else
      let allText := askAllText st env cf wf
      if allText = [] then
        { state := { st with messages := base ++ [{ role := .assistant, content := cantExtractResponse }] }
          llmCalled := false, promptContent := none
          msgs := [.searchingInfo matching.length] }
      else
        let content := truncateForPrompt 14000 allText
        { state := { st with messages := base ++ [{ role := .assistant, content := env.llm content }] }
          llmCalled := true, promptContent := some content
          msgs := if 14000 < allText.length
            then [.searchingInfo matching.length, .truncationWarning]
            else [.searchingInfo matching.length] }

/-! ## Generate Quiz (tab4) and Practice Exam (tab5)

Both handlers build a prompt and hand it to the LlamaIndex query engine
(retrieval plus LLM completion) with no check that any transcript row
matches their filters. -/

/-- Decimal rendering of a question count. -/
def natStr (n : Nat) : Str := (toString n).toList

/-- `", ".flatten(parts)`. -/
def joinComma : List Str → Str
  | [] => []
  | [x] => x
  | x :: xs => x ++ ", ".toList ++ joinComma xs

/-- The fixed instruction block of the tab4 quiz prompt. -/
def quizInstructionBlock : Str :=
  "For each question provide the question, its options, the correct answer, and a brief explanation referencing the course content.".toList

/-- The tab4 quiz prompt. -/
def quizPrompt (c : Str) (w : Int) (numQuestions : Nat) (questionTypes : List Str) : Str :=
  "Generate ".toList ++ natStr numQuestions ++
    " quiz questions from the Coursera course \x27".toList ++ c ++
    "\x27, Week ".toList ++ intStr w ++
    ". Include the following question types: ".toList ++ joinComma questionTypes ++
    ". ".toList ++ quizInstructionBlock

/-- Result of a query-engine-backed run (tab4 / tab5). -/
structure RagResult where
  state : AppState
  llmCalled : Bool
  output : Str

/-- The tab4 Generate Quiz handler: build the prompt and query the
engine — the language model is invoked unconditionally; no transcript
lookup guards the call. -/
def generateQuiz (st : AppState) (env : QueryEnv) (c : Str) (w : Int)
    (numQuestions : Nat) (questionTypes : List Str) : RagResult :=
  { state := st, llmCalled := true
    output := env.llm (quizPrompt c w numQuestions questionTypes) }

/-- The fixed instruction block of the tab5 exam prompt. -/
def examInstructionBlock : Str :=
  "Include a mix of multiple-choice, true/false and short answer questions with answers and detailed explanations referencing specific course content.".toList

/-- The tab5 exam prompt, covering either the selected weeks or all
weeks. -/
def examPrompt (c : Str) (specificWeeks : Bool) (selWeeks : List Int)
    (numQuestions : Nat) (difficulty : Str) : Str :=
  "Create a practice exam for the Coursera course \x27".toList ++ c ++
    "\x27, covering ".toList ++
    (if specificWeeks ∧ selWeeks ≠ [] then
      "Weeks ".toList ++ joinComma (selWeeks.map intStr)
     else "all weeks".toList) ++
    ". Generate ".toList ++ natStr numQuestions ++ " questions at ".toList ++
    difficulty ++ " difficulty level. ".toList ++ examInstructionBlock

/-- The tab5 Generate Practice Exam handler: build filters and prompt and
query the engine — again the language model is invoked unconditionally. -/
def practiceExam (st : AppState) (env : QueryEnv) (c : Str) (specificWeeks : Bool)
    (selWeeks : List Int) (numQuestions : Nat) (difficulty : Str) : RagResult :=
  { state := st, llmCalled := true
    output := env.llm (examPrompt c specificWeeks selWeeks numQuestions difficulty) }

/-! ## Structural lemmas about the upload flow -/

/-- The pinecone contents after `finishIngest`: the prior contents plus
(unless indexing raises) the freshly chunked and tagged nodes. -/
theorem finishIngest_pinecone (st1 : AppState) (env : IngestEnv) (inp : IngestInput)
    (path : Str) (ms : List UiMsg) :
    (finishIngest st1 env inp path ms).state.pinecone =
      st1.pinecone ++
        (if env.indexRaises then []
         else attachMetadata (env.chunker env.extractedText) (metaTriple inp)) := by
  unfold finishIngest
  split <;> simp

/-- The transcripts table after `finishIngest`: the prior rows plus the new
row for `path`. -/
theorem finishIngest_transcripts (st1 : AppState) (env : IngestEnv) (inp : IngestInput)
    (path : Str) (ms : List UiMsg) :
    (finishIngest st1 env inp path ms).state.transcripts =
      st1.transcripts ++
        [{ course_name := inp.course_name, week_number := some inp.week_number
           transcript_name := inp.transcript_name, file_path := path }] := by
  unfold finishIngest
  split <;> simp

/-- `finishIngest` always reports success. -/
theorem finishIngest_outcome (st1 : AppState) (env : IngestEnv) (inp : IngestInput)
    (path : Str) (ms : List UiMsg) :
    (finishIngest st1 env inp path ms).outcome = .success := by
  unfold finishIngest
  split <;> simp

/-- Membership in `attachMetadata` forces the attached triple. -/
theorem mem_attachMetadata {n : Node} {ns : List Node} {m : NodeMeta}
    (h : n ∈ attachMetadata ns m) : n.metadata = some m := by
  simp only [attachMetadata, List.mem_map] at h
  rcases h with ⟨a, _, rfl⟩
  rfl

/-- C5: every chunk indexed while ingesting one document carries exactly
the same metadata triple, equal to the (course, week, transcript name)
supplied for that document: any node in the vector store after an upload
either was already there or carries the upload's triple. -/
theorem C5_chunk_metadata_uniform (st : AppState) (env : IngestEnv) (inp : IngestInput)
    (n : Node) (hn : n ∈ (ingest st env inp).state.pinecone) :
    n ∈ st.pinecone ∨ n.metadata = some (metaTriple inp) := by
  unfold ingest at hn
  by_cases h1 : env.extractedText = []
  · rw [if_pos h1] at hn
    exact Or.inl hn
  · rw [if_neg h1] at hn
    cases hu : env.uploadRaises <;> cases ha : env.altUploadRaises <;>
      cases hv : env.verifyFindsFile <;> cases hd : env.dbInsertRaises <;>
      simp only [hu, ha, hv, hd, Bool.false_eq_true, if_true, if_false, ite_true,
        ite_false] at hn <;>
      first
      | exact Or.inl hn
      | · rw [finishIngest_pinecone] at hn
          simp only [List.mem_append] at hn
          rcases hn with hn | hn
          · exact Or.inl hn
          · cases hi : env.indexRaises <;> simp only [hi, Bool.false_eq_true,
              if_true, if_false, ite_true, ite_false] at hn
            · exact Or.inr (mem_attachMetadata hn)
            · cases hn

/-! ## Concrete fixtures used by witnesses and counterexamples -/

/-- A benign upload environment: extraction succeeds, the primary storage
upload succeeds and verifies, indexing succeeds, the chunker returns the
whole text as one chunk. -/
def envI : IngestEnv :=
  { extractedText := "hello world".toList
    uploadRaises := false
    verifyFindsFile := true
    altUploadRaises := false
    dbInsertRaises := false
    chunker := fun t => [{ text := t, metadata := none }]
    indexRaises := false }

/-- A small concrete upload. -/
def inpW : IngestInput :=
  { course_name := "Machine Learning".toList
    week_number := 1
    transcript_name := "L1".toList
    file_name := "a.pdf".toList
    file_bytes := [1, 2, 3] }

/-- The chunk produced by ingesting `inpW` under `envI`. -/
def nodeW : Node :=
  { text := "hello world".toList, metadata := some (metaTriple inpW) }

/-- Witness for C5: the chunk actually indexed by a concrete upload
carries the upload's metadata triple. -/
theorem C5_chunk_metadata_uniform_witness :
    nodeW ∈ emptyState.pinecone ∨ nodeW.metadata = some (metaTriple inpW) :=
  C5_chunk_metadata_uniform emptyState envI inpW nodeW (by decide)

/-- C9: a week number entered through the upload widget is clamped into
`[1, 20]`, so every `transcripts` row this application writes has a
non-null week number between 1 and 20, even though the declared schema
allows null. -/
theorem C9_week_number_bounded (st : AppState) (env : IngestEnv)
    (course tname fname : Str) (bytes : Bytes) (entered : Option Int)
    (trec : TranscriptRecord)
    (h : trec ∈ (ingest st env
      { course_name := course
        week_number := number_input 1 20 1 entered
        transcript_name := tname
        file_name := fname
        file_bytes := bytes }).state.transcripts) :
    trec ∈ st.transcripts ∨ ∃ k : Int, trec.week_number = some k ∧ 1 ≤ k ∧ k ≤ 20 := by
  have hbound : 1 ≤ number_input 1 20 1 entered ∧ number_input 1 20 1 entered ≤ 20 := by
    cases entered <;> simp [number_input]
  unfold ingest at h
  by_cases h1 : (IngestEnv.extractedText env) = []
  · rw [if_pos h1] at h
    exact Or.inl h
  · rw [if_neg h1] at h
    cases hu : env.uploadRaises <;> cases ha : env.altUploadRaises <;>
      cases hv : env.verifyFindsFile <;> cases hd : env.dbInsertRaises <;>
      simp only [hu, ha, hv, hd, Bool.false_eq_true, if_true, if_false, ite_true,
        ite_false] at h <;>
      first
      | exact Or.inl h
      | · rw [finishIngest_transcripts] at h
          simp only [List.mem_append, List.mem_singleton] at h
          rcases h with h | h
          · exact Or.inl h
          · subst h
            exact Or.inr ⟨number_input 1 20 1 entered, rfl, hbound.1, hbound.2⟩

/-- Witness for C9: a concrete upload with an out-of-range entry (25) still
yields an in-range stored week number. -/
theorem C9_week_number_bounded_witness :
    ({ course_name := "Machine Learning".toList
       week_number := some 20
       transcript_name := "L1".toList
       file_path := "Machine Learning_20_a.pdf".toList } : TranscriptRecord) ∈
        emptyState.transcripts ∨
      ∃ k : Int,
        ({ course_name := "Machine Learning".toList
           week_number := some 20
           transcript_name := "L1".toList
           file_path := "Machine Learning_20_a.pdf".toList } : TranscriptRecord).week_number =
            some k ∧ 1 ≤ k ∧ k ≤ 20 :=
  C9_week_number_bounded emptyState envI ("Machine Learning".toList) ("L1".toList)
    ("a.pdf".toList) [1, 2, 3] (some 25) _ (by decide)

/-- C6: a Pinecone indexing failure after the `transcripts` row is written
is non-fatal: compared with the same run without the failure, the outcome
and every persistent component except the vector index are identical (so
nothing is rolled back), and on success the failure shows up only as a
warning message. -/
theorem C6_index_failure_nonfatal (st : AppState) (env : IngestEnv) (inp : IngestInput) :
    (ingest st { env with indexRaises := true } inp).outcome =
        (ingest st { env with indexRaises := false } inp).outcome ∧
    (ingest st { env with indexRaises := true } inp).state.transcripts =
        (ingest st { env with indexRaises := false } inp).state.transcripts ∧
    (ingest st { env with indexRaises := true } inp).state.storage =
        (ingest st { env with indexRaises := false } inp).state.storage ∧
    (ingest st { env with indexRaises := true } inp).state.fileContents =
        (ingest st { env with indexRaises := false } inp).state.fileContents ∧
    ((ingest st { env with indexRaises := true } inp).outcome = .success →
      UiMsg.indexWarning ∈ (ingest st { env with indexRaises := true } inp).msgs) := by
  by_cases h1 : env.extractedText = []
  · simp [ingest, h1]
  · cases hu : env.uploadRaises <;> cases ha : env.altUploadRaises <;>
      cases hv : env.verifyFindsFile <;> cases hd : env.dbInsertRaises <;>
      simp [ingest, finishIngest, h1, hu, ha, hv, hd]

/-- Witness for C6: a concrete upload whose indexing step fails still
reports the failure as a warning. -/
theorem C6_index_failure_nonfatal_witness :
    UiMsg.indexWarning ∈ (ingest emptyState { envI with indexRaises := true } inpW).msgs :=
  (C6_index_failure_nonfatal emptyState envI inpW).2.2.2.2 (by decide)

/-- C8: every submitted Ask question — whether it succeeds, matches no
transcripts, extracts no text, or raises — appends exactly one user and
one assistant message to the chat log, leaving all prior messages
intact. -/
theorem C8_chat_log_grows_by_two (st : AppState) (env : QueryEnv) (cf : Option Str)
    (wf : Option Int) (q : Str) :
    ∃ r : Str, (ask st env cf wf q).state.messages =
      st.messages ++
        [{ role := .user, content := q }, { role := .assistant, content := r }] := by
  unfold ask
  by_cases hr : env.askRaises
  · exact ⟨errorReply env.askErrorText, by simp [hr]⟩
  · by_cases hm : matchingOptional st cf wf = []
    · exact ⟨noInfoResponse, by simp [hr, hm]⟩
    · by_cases ht : askAllText st env cf wf = []
      · exact ⟨cantExtractResponse, by simp [hr, hm, ht]⟩
      · exact ⟨env.llm (truncateForPrompt 14000 (askAllText st env cf wf)),
          by simp [hr, hm, ht]⟩

/-! ## Summarize structural lemmas and fixtures -/

/-- The state after a Summarize run: only the vector index changes, and it
grows by exactly this run's re-indexed nodes. -/
theorem summarize_state_eq (st : AppState) (env : QueryEnv) (c : Str) (w : Int) :
    (summarize st env c w).state =
      { st with pinecone := st.pinecone ++ summarizeNewNodes st env c w } := by
  by_cases hm : matchingTranscripts st c w = []
  · simp [summarize, hm, summarizeNewNodes]
  · by_cases ht : summarizeAllText st env c w = [] <;> simp [summarize, hm, ht]

/-- The nodes a Summarize run upserts do not depend on the current vector
index contents. -/
theorem summarizeNewNodes_pinecone_invariant (st : AppState) (p : List Node)
    (env : QueryEnv) (c : Str) (w : Int) :
    summarizeNewNodes { st with pinecone := p } env c w =
      summarizeNewNodes st env c w := rfl

/-- A transcript row of the query fixtures. -/
def trecW : TranscriptRecord :=
  { course_name := "ML".toList
    week_number := some 1
    transcript_name := "L1".toList
    file_path := "ML_1_a.pdf".toList }

/-- A state holding one transcript whose file is in object storage. -/
def stW : AppState :=
  { transcripts := [trecW]
    storage := [("ML_1_a.pdf".toList, [1, 2, 3])]
    fileContents := []
    pinecone := []
    messages := [] }

/-- A benign query environment. -/
def envQ : QueryEnv :=
  { pdfText := fun _ => "hello world".toList
    chunker := fun t => [{ text := t, metadata := none }]
    indexRaises := false
    llm := fun _ => "a summary".toList
    askRaises := false
    askErrorText := [] }

/-- C10: every Summarize run re-downloads each matching transcript and
re-upserts its chunks into the vector index: the index grows by this run's
nodes while no other component changes, a second identical run appends the
same nodes again (duplicates), and the appended batch is non-empty whenever
some matching transcript yields text and chunks and indexing does not
raise. -/
theorem C10_summarize_reindexes_every_run (st : AppState) (env : QueryEnv)
    (c : Str) (w : Int) :
    (summarize st env c w).state.pinecone =
        st.pinecone ++ summarizeNewNodes st env c w ∧
    (summarize st env c w).state.transcripts = st.transcripts ∧
    (summarize st env c w).state.storage = st.storage ∧
    (summarize st env c w).state.fileContents = st.fileContents ∧
    (summarize (summarize st env c w).state env c w).state.pinecone =
      st.pinecone ++ summarizeNewNodes st env c w ++ summarizeNewNodes st env c w ∧
    (∀ trec ∈ matchingTranscripts st c w,
      env.indexRaises = false →
      extractTextFromStorage env st trec.file_path ≠ [] →
      env.chunker (extractTextFromStorage env st trec.file_path) ≠ [] →
      summarizeNewNodes st env c w ≠ []) := by
  refine ⟨?_, ?_, ?_, ?_, ?_, ?_⟩
  · rw [summarize_state_eq]
  · rw [summarize_state_eq]
  · rw [summarize_state_eq]
  · rw [summarize_state_eq]
  · rw [summarize_state_eq, summarize_state_eq]
    simp [List.append_assoc]
    exact summarizeNewNodes_pinecone_invariant st _ env c w
  · intro trec hmem hidx htext hchunk hcontra
    unfold summarizeNewNodes at hcontra
    rw [List.flatten_eq_nil_iff] at hcontra
    have hper := hcontra (summarizePerNodes env st c w trec)
      (List.mem_map_of_mem _ hmem)
    simp only [summarizePerNodes, htext, hidx, Bool.false_eq_true, if_false,
      ite_false, attachMetadata, List.map_eq_nil_iff] at hper
    exact hchunk hper

/-- Witness for C10: the concrete one-transcript state yields a non-empty
re-indexed batch on each Summarize run. -/
theorem C10_summarize_reindexes_every_run_witness :
    summarizeNewNodes stW envQ ("ML".toList) 1 ≠ [] :=
  (C10_summarize_reindexes_every_run stW envQ ("ML".toList) 1).2.2.2.2.2 trecW
    (by decide) rfl (by decide) (by decide)

/-- C1 (amended): when zero transcript rows match the filter, Summarize
and Ask (absent exceptions) short-circuit with a user-facing no-content
result and never invoke the language model; Generate Quiz and Practice
Exam perform no such check and invoke the LLM-backed query engine
unconditionally. -/
theorem C1_amended_no_content_short_circuit (st : AppState) (env : QueryEnv)
    (c : Str) (w : Int) (cf : Option Str) (wf : Option Int) (q : Str)
    (nq : Nat) (qts : List Str) (c2 : Str) (sw : Bool) (ws : List Int)
    (n2 : Nat) (d : Str) :
    (matchingTranscripts st c w = [] →
      (summarize st env c w).llmCalled = false ∧
      (summarize st env c w).msgs = [.noContentWarning]) ∧
    (env.askRaises = false → matchingOptional st cf wf = [] →
      (ask st env cf wf q).llmCalled = false ∧
      (ask st env cf wf q).state.messages =
        st.messages ++ [{ role := .user, content := q },
          { role := .assistant, content := noInfoResponse }]) ∧
    (generateQuiz st env c w nq qts).llmCalled = true ∧
    (practiceExam st env c2 sw ws n2 d).llmCalled = true := by
  refine ⟨?_, ?_, rfl, rfl⟩
  · intro hm
    constructor <;> simp [summarize, hm]
  · intro hr hm
    constructor <;> simp [ask, hr, hm]

/-- Witness for C1 (amended): on the empty state, Summarize and Ask
short-circuit without an LLM call while Generate Quiz still invokes the
engine. -/
theorem C1_amended_no_content_short_circuit_witness :
    ((summarize emptyState envQ ("ML".toList) 1).llmCalled = false ∧
      (summarize emptyState envQ ("ML".toList) 1).msgs = [.noContentWarning]) ∧
    ((ask emptyState envQ none none ("hi".toList)).llmCalled = false ∧
      (ask emptyState envQ none none ("hi".toList)).state.messages =
        emptyState.messages ++ [{ role := .user, content := "hi".toList },
          { role := .assistant, content := noInfoResponse }]) ∧
    (generateQuiz emptyState envQ ("ML".toList) 1 5 []).llmCalled = true :=
  have h := C1_amended_no_content_short_circuit emptyState envQ ("ML".toList) 1 none none
    ("hi".toList) 5 [] ("ML".toList) false [] 5 ("Medium".toList)
  ⟨h.1 (by decide), h.2.1 rfl (by decide), h.2.2.1⟩

/-- Counterexample for C1 as stated: with zero matching transcript rows,
the Generate Quiz mode still invokes the language-model collaborator. -/
theorem C1_counterexample :
    matchingTranscripts emptyState ("Machine Learning".toList) 1 = [] ∧
    (generateQuiz emptyState envQ ("Machine Learning".toList) 1 5 []).llmCalled = true :=
  ⟨rfl, rfl⟩

/-! ## Truncation behavior (C2) -/

/-- The per-transcript Summarize messages never mention truncation. -/
theorem truncationWarning_not_in_perMsgs (env : QueryEnv) (st : AppState)
    (r : TranscriptRecord) :
    UiMsg.truncationWarning ∉ summarizePerMsgs env st r := by
  unfold summarizePerMsgs
  by_cases h : extractTextFromStorage env st r.file_path = [] <;>
    by_cases h2 : env.indexRaises <;> simp [h, h2]

/-- The Summarize loop never mentions truncation. -/
theorem truncationWarning_not_in_loopMsgs (st : AppState) (env : QueryEnv)
    (c : Str) (w : Int) :
    UiMsg.truncationWarning ∉ summarizeLoopMsgs st env c w := by
  unfold summarizeLoopMsgs
  intro h
  rw [List.mem_flatten] at h
  rcases h with ⟨l, hl, hmem⟩
  rw [List.mem_map] at hl
  rcases hl with ⟨r, _, rfl⟩
  exact truncationWarning_not_in_perMsgs env st r hmem

/-- A Summarize run never marks its response as based on partial content:
no message it emits is the truncation warning, on any path. -/
theorem summarize_no_truncation_warning (st : AppState) (env : QueryEnv)
    (c : Str) (w : Int) :
    UiMsg.truncationWarning ∉ (summarize st env c w).msgs := by
  unfold summarize
  by_cases hm : matchingTranscripts st c w = []
  · simp [hm]
  · by_cases ht : summarizeAllText st env c w = [] <;>
      simp [hm, ht, truncationWarning_not_in_loopMsgs st env c w]

/-- When some matching transcript yields text, the Summarize prompt
content is the (possibly truncated) combined text. -/
theorem summarize_promptContent (st : AppState) (env : QueryEnv) (c : Str) (w : Int)
    (h : summarizeAllText st env c w ≠ []) :
    (summarize st env c w).promptContent =
      some (truncateForPrompt 12000 (summarizeAllText st env c w)) := by
  have hm : matchingTranscripts st c w ≠ [] := by
    intro hc
    apply h
    unfold summarizeAllText
    rw [hc]
    rfl
  unfold summarize
  simp [hm, h]

/-- An empty Ask match list yields empty combined text. -/
theorem askAllText_ne_nil_matching (st : AppState) (env : QueryEnv)
    (cf : Option Str) (wf : Option Int) (h : askAllText st env cf wf ≠ []) :
    matchingOptional st cf wf ≠ [] := by
  intro hc
  apply h
  unfold askAllText
  rw [hc]
  rfl

/-- C2 (amended): text over the ceiling is truncated to exactly the
ceiling-length prefix plus the `"..."` marker in both the Summarize
(12000) and Ask (14000) flows, and text at or under the ceiling passes
through unchanged; but only the Ask flow marks the response as based on
partial content — the Summarize flow truncates silently. -/
theorem C2_amended_truncation (st : AppState) (env : QueryEnv) (c : Str) (w : Int)
    (cf : Option Str) (wf : Option Int) (q : Str) :
    (12000 < (summarizeAllText st env c w).length →
      (summarize st env c w).promptContent =
        some ((summarizeAllText st env c w).take 12000 ++ dots3)) ∧
    ((summarizeAllText st env c w).length ≤ 12000 →
      summarizeAllText st env c w ≠ [] →
      (summarize st env c w).promptContent = some (summarizeAllText st env c w)) ∧
    UiMsg.truncationWarning ∉ (summarize st env c w).msgs ∧
    (env.askRaises = false → 14000 < (askAllText st env cf wf).length →
      (ask st env cf wf q).promptContent =
        some ((askAllText st env cf wf).take 14000 ++ dots3) ∧
      UiMsg.truncationWarning ∈ (ask st env cf wf q).msgs) ∧
    (env.askRaises = false → (askAllText st env cf wf).length ≤ 14000 →
      askAllText st env cf wf ≠ [] →
      (ask st env cf wf q).promptContent = some (askAllText st env cf wf) ∧
      UiMsg.truncationWarning ∉ (ask st env cf wf q).msgs) := by
  refine ⟨?_, ?_, summarize_no_truncation_warning st env c w, ?_, ?_⟩
  · intro hlen
    have hne : summarizeAllText st env c w ≠ [] := by
      intro hc
      rw [hc] at hlen
      simp at hlen
    rw [summarize_promptContent st env c w hne, truncateForPrompt, if_pos hlen]
  · intro hlen hne
    rw [summarize_promptContent st env c w hne, truncateForPrompt,
      if_neg (by omega)]
  · intro hr hlen
    have hne : askAllText st env cf wf ≠ [] := by
      intro hc
      rw [hc] at hlen
      simp at hlen
    have hm := askAllText_ne_nil_matching st env cf wf hne
    constructor
    · unfold ask
      simp [hr, hm, hne, truncateForPrompt, if_pos hlen]
    · unfold ask
      simp [hr, hm, hne, if_pos hlen]
  · intro hr hlen hne
    have hm := askAllText_ne_nil_matching st env cf wf hne
    have hnotlt : ¬ 14000 < (askAllText st env cf wf).length := by omega
    constructor
    · unfold ask
      simp [hr, hm, hne, truncateForPrompt, hnotlt]
    · unfold ask
      simp [hr, hm, hne, hnotlt]

/-- A query environment whose PDF renderer yields 20001 characters — over
both truncation ceilings. -/
def envT : QueryEnv :=
  { pdfText := fun _ => List.replicate 20001 'a'
    chunker := fun _ => []
    indexRaises := false
    llm := fun _ => []
    askRaises := false
    askErrorText := [] }

/-- The combined Summarize text of the long-text fixture. -/
theorem summarizeAllText_envT :
    summarizeAllText stW envT ("ML".toList) 1 = (List.replicate 20001 'a' ++ nl2) ++ [] := by
  have h1 : matchingTranscripts stW ("ML".toList) 1 = [trecW] := by decide
  have htext : extractTextFromStorage envT stW trecW.file_path = List.replicate 20001 'a' :=
    rfl
  have hne : (List.replicate 20001 'a' : Str) ≠ [] :=
    List.ne_nil_of_length_pos (by rw [List.length_replicate]; omega)
  unfold summarizeAllText
  rw [h1, List.map_cons, List.map_nil, List.flatten_cons, List.flatten_nil]
  simp only [summarizePerText]
  rw [htext, if_neg hne]

/-- The combined Ask text of the long-text fixture. -/
theorem askAllText_envT :
    askAllText stW envT (some ("ML".toList)) (some 1) =
      (askHeaderL ++ trecW.transcript_name ++ askHeaderR ++ List.replicate 20001 'a') ++ [] := by
  have h1 : matchingOptional stW (some ("ML".toList)) (some 1) = [trecW] := by decide
  have htext : extractTextFromStorage envT stW trecW.file_path = List.replicate 20001 'a' :=
    rfl
  have hne : (List.replicate 20001 'a' : Str) ≠ [] :=
    List.ne_nil_of_length_pos (by rw [List.length_replicate]; omega)
  unfold askAllText
  rw [h1, List.map_cons, List.map_nil, List.flatten_cons, List.flatten_nil]
  simp only [askPerText]
  rw [htext, if_neg hne]

/-- The Summarize fixture text is longer than the 12000 ceiling. -/
theorem summarizeAllText_envT_long :
    12000 < (summarizeAllText stW envT ("ML".toList) 1).length := by
  have h2 : (nl2 : Str).length = 2 := rfl
  rw [summarizeAllText_envT, List.append_nil, List.length_append,
    List.length_replicate, h2]
  omega

/-- The Ask fixture text is longer than the 14000 ceiling. -/
theorem askAllText_envT_long :
    14000 < (askAllText stW envT (some ("ML".toList)) (some 1)).length := by
  have hL : (askHeaderL : Str).length = 6 := rfl
  have hR : (askHeaderR : Str).length = 6 := rfl
  have hN : trecW.transcript_name.length = 2 := rfl
  rw [askAllText_envT, List.append_nil, List.length_append, List.length_append,
    List.length_append, List.length_replicate, hL, hR, hN]
  omega

/-- Counterexample for C2 as stated: a Summarize run over text longer than
the 12000-character ceiling truncates but emits no message marking the
response as based on partial content. -/
theorem C2_counterexample :
    12000 < (summarizeAllText stW envT ("ML".toList) 1).length ∧
    UiMsg.truncationWarning ∉ (summarize stW envT ("ML".toList) 1).msgs :=
  ⟨summarizeAllText_envT_long, summarize_no_truncation_warning stW envT ("ML".toList) 1⟩

/-- Witness for C2 (amended): over-ceiling text is truncated to the exact
prefix plus marker in both flows, and the Ask flow emits the partial
content warning. -/
theorem C2_amended_truncation_witness :
    (summarize stW envT ("ML".toList) 1).promptContent =
      some ((summarizeAllText stW envT ("ML".toList) 1).take 12000 ++ dots3) ∧
    (ask stW envT (some ("ML".toList)) (some 1) ("q".toList)).promptContent =
      some ((askAllText stW envT (some ("ML".toList)) (some 1)).take 14000 ++ dots3) ∧
    UiMsg.truncationWarning ∈
      (ask stW envT (some ("ML".toList)) (some 1) ("q".toList)).msgs := by
  have h := C2_amended_truncation stW envT ("ML".toList) 1 (some ("ML".toList)) (some 1)
    ("q".toList)
  exact ⟨h.1 summarizeAllText_envT_long,
    (h.2.2.2.1 rfl askAllText_envT_long).1,
    (h.2.2.2.1 rfl askAllText_envT_long).2⟩

/-! ## Extraction behavior (C7) -/

/-- The page loop returns the concatenation of the pages before the first
failing one, appended to the accumulator, and reports failure exactly when
some page fails. -/
theorem extractPages_eq (pages : List (Option Str)) (acc : Str) :
    extractPages pages acc =
      (acc ++ ((pages.takeWhile Option.isSome).filterMap id).flatten,
        !pages.all Option.isSome) := by
  induction pages generalizing acc with
  | nil => simp [extractPages]
  | cons p rest ih =>
    cases p with
    | some t => simp [extractPages, ih, List.takeWhile_cons, List.append_assoc]
    | none => simp [extractPages, List.takeWhile_cons]

/-- When every page extracts, the page list's own concatenation comes
back. -/
theorem takeWhile_isSome_all {l : List (Option Str)} (h : ∀ p ∈ l, p.isSome) :
    l.takeWhile Option.isSome = l := by
  induction l with
  | nil => rfl
  | cons p rest ih =>
    rw [List.takeWhile_cons, if_pos (h p (by simp)), ih (fun x hx => h x (by simp [hx]))]

/-- C7 (amended): text extraction concatenates per-page text in page
order; if opening the document fails it returns the empty string and
reports failure, while a page raising mid-extraction reports failure but
returns the text accumulated from the preceding pages; and an ingestion
whose extraction yields empty text aborts before any persistence. -/
theorem C7_amended_extraction (pages : List (Option Str)) (st : AppState)
    (env : IngestEnv) (inp : IngestInput) :
    extract_text_from_pdf true pages = ([], true) ∧
    ((∀ p ∈ pages, p.isSome) →
      extract_text_from_pdf false pages = ((pages.filterMap id).flatten, false)) ∧
    extract_text_from_pdf false pages =
      (((pages.takeWhile Option.isSome).filterMap id).flatten,
        !pages.all Option.isSome) ∧
    (env.extractedText = [] →
      ingest st env inp =
        { state := st, outcome := .extractionFailed, msgs := [.extractionError] }) := by
  refine ⟨rfl, ?_, ?_, ?_⟩
  · intro h
    rw [extract_text_from_pdf, if_neg (by simp), extractPages_eq,
      takeWhile_isSome_all h]
    simp [List.all_eq_true.mpr h]
  · rw [extract_text_from_pdf, if_neg (by simp), extractPages_eq]
    rfl
  · intro h
    rw [ingest, if_pos h]

/-- Counterexample for C7 as stated: a document whose second page raises
returns the first page's text, not the empty string, while reporting
failure. -/
theorem C7_counterexample :
    extract_text_from_pdf false [some ("a".toList), none] = ("a".toList, true) ∧
    ("a".toList : Str) ≠ [] := by
  constructor
  · rfl
  · decide

/-- Witness for C7 (amended): a concrete two-page document concatenates in
page order, and a concrete empty-extraction upload leaves the state
untouched. -/
theorem C7_amended_extraction_witness :
    extract_text_from_pdf false [some ("a".toList), some ("b".toList)] =
      ((([some ("a".toList), some ("b".toList)].filterMap id).flatten : Str), false) ∧
    ingest stW { envI with extractedText := [] } inpW =
      { state := stW, outcome := .extractionFailed, msgs := [.extractionError] } :=
  have h := C7_amended_extraction [some ("a".toList), some ("b".toList)] stW
    { envI with extractedText := [] } inpW
  ⟨h.2.1 (by decide), h.2.2.2 rfl⟩

/-! ## Storage resolution lemmas (C3, C4) -/

/-- Downloading a path just upserted returns the uploaded bytes. -/
theorem storageDownload_storageUpload (store : List (Str × Bytes)) (path : Str)
    (bs : Bytes) :
    storageDownload (storageUpload store path bs) path = some bs := by
  simp [storageUpload, storageDownload, List.find?]

/-- Case-insensitive match is reflexive. -/
theorem ilikeMatch_self (a : Str) : ilikeMatch a a = true := by
  simp [ilikeMatch]

/-- A list is a prefix of itself followed by anything. -/
theorem isPrefixOf_append_self (a b : Str) : a.isPrefixOf (a ++ b) = true := by
  simp

/-- The fallback marker is a prefix of every tagged path. -/
theorem dbMarker_isPrefixOf_append (l : Str) :
    dbMarker.isPrefixOf (dbMarker ++ l) = true :=
  isPrefixOf_append_self dbMarker l

/-- Stripping the three marker characters recovers the file name. -/
theorem dbMarker_drop (l : Str) : (dbMarker ++ l).drop 3 = l := rfl

/-- `finishIngest` leaves object storage untouched. -/
theorem finishIngest_storage (st1 : AppState) (env : IngestEnv) (inp : IngestInput)
    (path : Str) (ms : List UiMsg) :
    (finishIngest st1 env inp path ms).state.storage = st1.storage := by
  unfold finishIngest
  split <;> simp

/-- `finishIngest` leaves the fallback table untouched. -/
theorem finishIngest_fileContents (st1 : AppState) (env : IngestEnv) (inp : IngestInput)
    (path : Str) (ms : List UiMsg) :
    (finishIngest st1 env inp path ms).state.fileContents = st1.fileContents := by
  unfold finishIngest
  split <;> simp

/-- Resolution reads only object storage and the fallback table. -/
theorem resolveFileBytes_congr (st1 st2 : AppState) (path : Str)
    (hs : st1.storage = st2.storage) (hf : st1.fileContents = st2.fileContents) :
    resolveFileBytes st1 path = resolveFileBytes st2 path := by
  unfold resolveFileBytes storageDownload
  simp only [hs, hf]

/-- An untagged path resolves through object storage. -/
theorem resolveFileBytes_nondb (st1 : AppState) (path : Str)
    (hpath : dbMarker.isPrefixOf path = false) :
    resolveFileBytes st1 path = storageDownload st1.storage path := by
  unfold resolveFileBytes
  rw [if_neg (by simp [hpath])]

/-- A tagged path resolves through the fallback table, and when the newly
appended record is the only name match its base64 payload decodes back to
the stored bytes. -/
theorem resolveFileBytes_fallback (st1 : AppState) (fcs : List FileContentRecord)
    (fcrec : FileContentRecord) (bytes : Bytes)
    (hbytes : ∀ b ∈ bytes, b < 256)
    (hfc : st1.fileContents = fcs ++ [fcrec])
    (hdata : fcrec.file_data = b64Encode bytes)
    (hcoll : ∀ fc ∈ fcs, ilikeMatch fc.file_name fcrec.file_name = false) :
    resolveFileBytes st1 (dbMarker ++ fcrec.file_name) = some bytes := by
  unfold resolveFileBytes
  rw [if_pos (dbMarker_isPrefixOf_append fcrec.file_name)]
  simp only [dbMarker_drop, hfc, List.filter_append]
  have h1 : fcs.filter (fun r => ilikeMatch r.file_name fcrec.file_name) = [] := by
    rw [List.filter_eq_nil_iff]
    intro fc hfc2
    simp [hcoll fc hfc2]
  have h2 : [fcrec].filter (fun r => ilikeMatch r.file_name fcrec.file_name) = [fcrec] := by
    simp [ilikeMatch_self]
  rw [h1, h2]
  simp only [List.nil_append]
  show some (b64Decode fcrec.file_data) = some bytes
  rw [hdata, b64Decode_b64Encode bytes hbytes]

/-- The new transcript row written by `finishIngest` is retrievable by the
(course, week) query and its path resolves like in the pre-insert state. -/
theorem finish_roundtrip (st1 : AppState) (env : IngestEnv) (inp : IngestInput)
    (path : Str) (ms : List UiMsg)
    (hres : resolveFileBytes st1 path = some inp.file_bytes) :
    ∃ trec ∈ matchingTranscripts (finishIngest st1 env inp path ms).state
        inp.course_name inp.week_number,
      resolveFileBytes (finishIngest st1 env inp path ms).state trec.file_path =
        some inp.file_bytes := by
  refine ⟨{ course_name := inp.course_name, week_number := some inp.week_number
            transcript_name := inp.transcript_name, file_path := path }, ?_, ?_⟩
  · unfold matchingTranscripts
    rw [finishIngest_transcripts]
    exact List.mem_filter.mpr
      ⟨List.mem_append_right _ (List.mem_singleton_self _), by simp⟩
  · rw [resolveFileBytes_congr _ st1 _ (finishIngest_storage st1 env inp path ms)
      (finishIngest_fileContents st1 env inp path ms)]
    exact hres

/-- C3 (amended): after a successful ingestion, a transcript row matching
the upload's (course, week) is retrievable and its stored path resolves to
the original bytes — provided the derived primary path and the raw file
name do not themselves begin with the `DB_` fallback marker (such paths
are misrouted to the fallback table on resolution) and no pre-existing
fallback record's file name matches the upload's file name
case-insensitively (resolution takes the first match). -/
theorem C3_amended_roundtrip (st : AppState) (env : IngestEnv) (inp : IngestInput)
    (hbytes : ∀ b ∈ inp.file_bytes, b < 256)
    (hprim : dbMarker.isPrefixOf (primaryPath inp) = false)
    (hname : dbMarker.isPrefixOf inp.file_name = false)
    (hcoll : ∀ fc ∈ st.fileContents, ilikeMatch fc.file_name inp.file_name = false)
    (hsucc : (ingest st env inp).outcome = .success) :
    ∃ trec ∈ matchingTranscripts (ingest st env inp).state
        inp.course_name inp.week_number,
      resolveFileBytes (ingest st env inp).state trec.file_path =
        some inp.file_bytes := by
  by_cases h1 : env.extractedText = []
  · rw [ingest, if_pos h1] at hsucc
    exact absurd hsucc (by simp)
  · cases hu : env.uploadRaises
    · cases hv : env.verifyFindsFile
      · cases hd : env.dbInsertRaises
        · have hres : ingest st env inp =
              finishIngest
                { st with
                    storage := storageUpload st.storage (primaryPath inp) inp.file_bytes
                    fileContents := st.fileContents ++
                      [{ course_name := inp.course_name
                         week_number := some inp.week_number
                         transcript_name := inp.transcript_name
                         file_name := inp.file_name
                         file_data := b64Encode inp.file_bytes }] }
                env inp (dbMarker ++ inp.file_name) ([] ++ [.fallbackSuccess]) := by
            rw [ingest, if_neg h1]
            simp [hu, hv, hd]
          rw [hres]
          apply finish_roundtrip
          exact resolveFileBytes_fallback _ st.fileContents
            { course_name := inp.course_name
              week_number := some inp.week_number
              transcript_name := inp.transcript_name
              file_name := inp.file_name
              file_data := b64Encode inp.file_bytes } inp.file_bytes hbytes rfl rfl hcoll
        · rw [ingest, if_neg h1] at hsucc
          simp [hu, hv, hd] at hsucc
      · have hres : ingest st env inp =
            finishIngest
              { st with storage := storageUpload st.storage (primaryPath inp) inp.file_bytes }
              env inp (primaryPath inp) [] := by
          rw [ingest, if_neg h1]
          simp [hu, hv]
        rw [hres]
        apply finish_roundtrip
        rw [resolveFileBytes_nondb _ _ hprim]
        exact storageDownload_storageUpload st.storage (primaryPath inp) inp.file_bytes
    · cases ha : env.altUploadRaises
      · have hres : ingest st env inp =
            finishIngest
              { st with storage := storageUpload st.storage inp.file_name inp.file_bytes }
              env inp inp.file_name [.storageUploadError] := by
          rw [ingest, if_neg h1]
          simp [hu, ha]
        rw [hres]
        apply finish_roundtrip
        rw [resolveFileBytes_nondb _ _ hname]
        exact storageDownload_storageUpload st.storage inp.file_name inp.file_bytes
      · cases hd : env.dbInsertRaises
        · have hres : ingest st env inp =
              finishIngest
                { st with
                    fileContents := st.fileContents ++
                      [{ course_name := inp.course_name
                         week_number := some inp.week_number
                         transcript_name := inp.transcript_name
                         file_name := inp.file_name
                         file_data := b64Encode inp.file_bytes }] }
                env inp (dbMarker ++ inp.file_name)
                ([.storageUploadError, .altUploadError] ++ [.fallbackSuccess]) := by
            rw [ingest, if_neg h1]
            simp [hu, ha, hd]
          rw [hres]
          apply finish_roundtrip
          exact resolveFileBytes_fallback _ st.fileContents
            { course_name := inp.course_name
              week_number := some inp.week_number
              transcript_name := inp.transcript_name
              file_name := inp.file_name
              file_data := b64Encode inp.file_bytes } inp.file_bytes hbytes rfl rfl hcoll
        · rw [ingest, if_neg h1] at hsucc
          simp [hu, ha, hd] at hsucc

/-- An upload whose course name is `"DB"`: its derived storage path starts
with the fallback marker. -/
def inpDB : IngestInput :=
  { course_name := "DB".toList
    week_number := 1
    transcript_name := "L1".toList
    file_name := "a.pdf".toList
    file_bytes := [1, 2, 3] }

/-- Counterexample for C3 as stated: a successful primary-storage upload
for course `"DB"`, week 1 yields the row path `"DB_1_a.pdf"`, which
resolution misroutes to the (empty) fallback table — the original bytes
are not reconstructed. -/
theorem C3_counterexample :
    (ingest emptyState envI inpDB).outcome = .success ∧
    matchingTranscripts (ingest emptyState envI inpDB).state ("DB".toList) 1 =
      [{ course_name := "DB".toList, week_number := some 1
         transcript_name := "L1".toList, file_path := "DB_1_a.pdf".toList }] ∧
    resolveFileBytes (ingest emptyState envI inpDB).state ("DB_1_a.pdf".toList) = none ∧
    inpDB.file_bytes = [1, 2, 3] := by
  decide

/-- Witness for C3 (amended): a concrete benign upload round-trips. -/
theorem C3_amended_roundtrip_witness :
    ∃ trec ∈ matchingTranscripts (ingest emptyState envI inpW).state
        inpW.course_name inpW.week_number,
      resolveFileBytes (ingest emptyState envI inpW).state trec.file_path =
        some inpW.file_bytes :=
  C3_amended_roundtrip emptyState envI inpW (by decide) (by decide) (by decide)
    (by decide) (by decide)

/-- C4 (amended): when the primary upload and the simplified-path retry
both fail, ingestion falls back to a base64 record in the fallback table,
tags the stored path with `DB_`, and still succeeds; retrieval through the
fallback reconstructs the original bytes provided no earlier fallback
record's file name matches the upload's case-insensitively (retrieval
returns the first match). -/
theorem C4_amended_fallback (st : AppState) (env : IngestEnv) (inp : IngestInput)
    (hbytes : ∀ b ∈ inp.file_bytes, b < 256)
    (htext : env.extractedText ≠ [])
    (hup : env.uploadRaises = true)
    (halt : env.altUploadRaises = true)
    (hdb : env.dbInsertRaises = false)
    (hcoll : ∀ fc ∈ st.fileContents, ilikeMatch fc.file_name inp.file_name = false) :
    (ingest st env inp).outcome = .success ∧
    (ingest st env inp).state.fileContents =
      st.fileContents ++
        [{ course_name := inp.course_name, week_number := some inp.week_number
           transcript_name := inp.transcript_name, file_name := inp.file_name
           file_data := b64Encode inp.file_bytes }] ∧
    (ingest st env inp).state.transcripts =
      st.transcripts ++
        [{ course_name := inp.course_name, week_number := some inp.week_number
           transcript_name := inp.transcript_name
           file_path := dbMarker ++ inp.file_name }] ∧
    resolveFileBytes (ingest st env inp).state (dbMarker ++ inp.file_name) =
      some inp.file_bytes := by
  have hres : ingest st env inp =
      finishIngest
        { st with
            fileContents := st.fileContents ++
              [{ course_name := inp.course_name
                 week_number := some inp.week_number
                 transcript_name := inp.transcript_name
                 file_name := inp.file_name
                 file_data := b64Encode inp.file_bytes }] }
        env inp (dbMarker ++ inp.file_name)
        ([.storageUploadError, .altUploadError] ++ [.fallbackSuccess]) := by
    rw [ingest, if_neg htext]
    simp [hup, halt, hdb]
  rw [hres]
  refine ⟨finishIngest_outcome _ _ _ _ _, ?_, finishIngest_transcripts _ _ _ _ _, ?_⟩
  · rw [finishIngest_fileContents]
  · rw [resolveFileBytes_congr _
      { st with
          fileContents := st.fileContents ++
            [{ course_name := inp.course_name
               week_number := some inp.week_number
               transcript_name := inp.transcript_name
               file_name := inp.file_name
               file_data := b64Encode inp.file_bytes }] } _
      (finishIngest_storage _ _ _ _ _) (finishIngest_fileContents _ _ _ _ _)]
    exact resolveFileBytes_fallback _ st.fileContents
      { course_name := inp.course_name
        week_number := some inp.week_number
        transcript_name := inp.transcript_name
        file_name := inp.file_name
        file_data := b64Encode inp.file_bytes } inp.file_bytes hbytes rfl rfl hcoll

/-- An upload environment in which both storage upload attempts fail. -/
def envF : IngestEnv :=
  { extractedText := "t".toList
    uploadRaises := true
    verifyFindsFile := false
    altUploadRaises := true
    dbInsertRaises := false
    chunker := fun _ => []
    indexRaises := false }

/-- First fallback upload: file `x.pdf` with bytes `[1]`. -/
def inpF1 : IngestInput :=
  { course_name := "A".toList
    week_number := 1
    transcript_name := "T1".toList
    file_name := "x.pdf".toList
    file_bytes := [1] }

/-- Second fallback upload: a different document also named `x.pdf`, with
bytes `[2]`. -/
def inpF2 : IngestInput :=
  { course_name := "B".toList
    week_number := 2
    transcript_name := "T2".toList
    file_name := "x.pdf".toList
    file_bytes := [2] }

/-- Counterexample for C4 as stated: after two fallback uploads sharing a
file name, resolving the second document's tagged path returns the first
document's bytes `[1]`, not its own bytes `[2]` — fallback retrieval takes
the first name match. -/
theorem C4_counterexample :
    (ingest (ingest emptyState envF inpF1).state envF inpF2).outcome = .success ∧
    resolveFileBytes (ingest (ingest emptyState envF inpF1).state envF inpF2).state
      (dbMarker ++ inpF2.file_name) = some [1] ∧
    inpF2.file_bytes = [2] := by
  decide

/-- Witness for C4 (amended): a single concrete fallback upload
round-trips through the base64 record. -/
theorem C4_amended_fallback_witness :
    resolveFileBytes (ingest emptyState envF inpF1).state
      (dbMarker ++ inpF1.file_name) = some inpF1.file_bytes :=
  (C4_amended_fallback emptyState envF inpF1 (by decide) (by decide) rfl rfl rfl
    (by decide)).2.2.2
